import Mathlib

/-!
Verification development for the certificate-generation service (cergen).

The definitions below are a shallow embedding of the JavaScript sources:
the placeholder scanner of the test script, the filename sanitization and
batch loop of PDFProcessor, the template dispatcher and upload route of
server.js, and the bulk email loop of EmailService.  File system writes,
the PDF page painting and SMTP transport are abstracted as oracles
(success or failure with a message); everything that the claims speak
about — control flow, collected results, produced strings — is translated
literally from the source.
-/

namespace Cergen

/-- The left brace character, written via its code point. -/
def lbrace : Char := Char.ofNat 123

/-- The right brace character, written via its code point. -/
def rbrace : Char := Char.ofNat 125

/-- ASCII whitespace, the relevant fragment of the JavaScript `\s` class
and of the whitespace set trimmed by String.prototype.trim. -/
def isWs (c : Char) : Bool :=
  c.toNat = 32 || c.toNat = 9 || c.toNat = 10 || c.toNat = 13 || c.toNat = 11 || c.toNat = 12

/-- Characters of the class [a-zA-Z0-9]. -/
def isAlphaNum (c : Char) : Bool :=
  (65 ≤ c.toNat && c.toNat ≤ 90) || (97 ≤ c.toNat && c.toNat ≤ 122) || (48 ≤ c.toNat && c.toNat ≤ 57)

/-- JavaScript String.prototype.trim on a character list: remove leading
and trailing whitespace. -/
def trimWs (l : List Char) : List Char :=
  ((l.dropWhile isWs).reverse.dropWhile isWs).reverse

/-- String.prototype.trim. -/
def trimS (s : String) : String := (trimWs s.toList).asString

/-!
Placeholder scanner.  The test script testPlaceholderExtraction collects
`content.match(/\x7b\x7b([^\x7d]+)\x7d\x7d/g)`, then for each full match
computes `match.replace(/[\x7b\x7d]/g, '').trim()` and adds it to a Set
when it is non-empty.  `findMatchesAux` reproduces the global regex scan:
at each position, a match requires two left braces, then the maximal run
of one or more non-right-brace characters, then two right braces; on a
match the scan resumes after it, otherwise it advances one character.
The fuel argument is always instantiated with the length of the list,
which strictly bounds the number of steps.
-/

/-- Global scan for the regex, fuel-indexed; fuel = list length suffices
since every step consumes at least one character. -/
def findMatchesAux : Nat → List Char → List (List Char)
  | 0, _ => []
  | _ + 1, [] => []
  | _ + 1, [_] => []
  | fuel + 1, a :: b :: rest =>
    if a = lbrace ∧ b = lbrace then
      match rest.takeWhile (fun c => !(c == rbrace)), rest.dropWhile (fun c => !(c == rbrace)) with
      | bodyHd :: bodyTl, r1 :: r2 :: rem2 =>
        if r1 = rbrace ∧ r2 = rbrace then
          (lbrace :: lbrace :: ((bodyHd :: bodyTl) ++ [rbrace, rbrace])) :: findMatchesAux fuel rem2
        else findMatchesAux fuel (b :: rest)
      | _, _ => findMatchesAux fuel (b :: rest)
    else findMatchesAux fuel (b :: rest)

/-- All full matches of the placeholder regex in a text, in scan order. -/
def findMatches (l : List Char) : List (List Char) :=
  findMatchesAux l.length l

/-- The body of a full match: the characters between the double braces
(two characters dropped at each end). -/
def matchBody (m : List Char) : List Char :=
  ((m.drop 2).dropLast).dropLast

/-- What the scanner makes of one full match:
`match.replace(/[\x7b\x7d]/g, '').trim()` — every brace character removed,
then trimmed. -/
def placeholderOfMatch (m : List Char) : String :=
  (trimWs (m.filter (fun c => !(c == lbrace) && !(c == rbrace)))).asString

/-- JavaScript Set insertion: append the element unless already present. -/
def addDistinct (acc : List String) (s : String) : List String :=
  if s ∈ acc then acc else acc ++ [s]

/-- Insertion-order deduplication, the contents of a JavaScript Set fed by
a forEach loop, read back with Array.from. -/
def dedupKeepFirst (l : List String) : List String :=
  l.foldl addDistinct []

/-- The placeholder scan of one template text: all regex matches, each
stripped of braces and trimmed, empty results discarded, collected into a
Set (no duplicates, first-seen order). -/
def scanPlaceholders (content : String) : List String :=
  dedupKeepFirst (((findMatches content.toList).map placeholderOfMatch).filter (fun s => !(s == "")))

/-!
Filename sanitization of PDFProcessor.generateCertificates:
`name.replace(/[^a-zA-Z0-9\s]/g, '').replace(/\s+/g, '_')`.
-/

/-- A character kept by the first replace: the class [a-zA-Z0-9\s]. -/
def keepCh (c : Char) : Bool := isAlphaNum c || isWs c

/-- Second replace, processed character by character: the flag records
whether the scan is inside a whitespace run whose underscore was already
emitted. -/
def collapseWsAux : Bool → List Char → List Char
  | _, [] => []
  | inRun, c :: cs =>
    if isWs c then
      if inRun then collapseWsAux true cs
      else '_' :: collapseWsAux true cs
    else c :: collapseWsAux false cs

/-- Second replace: each maximal run of whitespace becomes one underscore. -/
def collapseWs (l : List Char) : List Char := collapseWsAux false l

/-- The safe file name computed by PDFProcessor.generateCertificates. -/
def safeFileName (name : String) : String :=
  (collapseWs (name.toList.filter keepCh)).asString

/-- Modelled from the spec (section 6, Output): the sanitization rule as the
spec words it — strip all characters outside [A-Za-z0-9 ] (letters, digits,
space), then collapse whitespace runs to single underscores.  Stated only to
be compared with safeFileName, which is translated from the source. -/
def specSafeFileName (name : String) : String :=
  (collapseWs (name.toList.filter (fun c => isAlphaNum c || c == ' '))).asString

/-- The on-disk file name `certificate-...pdf` of one generated PDF. -/
def pdfCertFileName (name : String) : String :=
  "certificate-" ++ safeFileName name ++ ".pdf"

/-- The output path `outputDir/certificate-...pdf` of one generated PDF. -/
def pdfCertPath (outputDir name : String) : String :=
  outputDir ++ "/certificate-" ++ safeFileName name ++ ".pdf"

/-- The result record pushed for one successfully rendered recipient. -/
structure GeneratedFile where
  name : String
  filename : String
  path : String
deriving DecidableEq

/-- The GeneratedFile pushed by the PDF batch loop for one recipient. -/
def mkPdfFile (outputDir n : String) : GeneratedFile :=
  { name := n, filename := pdfCertFileName n, path := pdfCertPath outputDir n }

/-!
Batch loop of PDFProcessor.generateCertificates: for each name in order,
try to render (create safe filename, process the template, write the
output); on success push a GeneratedFile; on a thrown error log it to the
console and continue with the next name.  The render oracle abstracts
processAdvancedPDFTemplate: it either succeeds or throws with a message.
The second component of the result is the trace of attempted names, one
entry per processAdvancedPDFTemplate invocation, in order.
-/

/-- PDF batch loop: returns the pushed GeneratedFiles and the trace of
attempted names. -/
def pdfGenerateRun (render : String → Except String Unit) (outputDir : String) :
    List String → List GeneratedFile × List String
  | [] => ([], [])
  | n :: rest =>
    let prev := pdfGenerateRun render outputDir rest
    match render n with
    | .ok _ => (mkPdfFile outputDir n :: prev.1, n :: prev.2)
    | .error _ => (prev.1, n :: prev.2)

/-- The value returned by PDFProcessor.generateCertificates: only the list
of GeneratedFiles; per-recipient errors are logged and dropped. -/
def pdfGenerateCertificates (render : String → Except String Unit) (outputDir : String)
    (names : List String) : List GeneratedFile :=
  (pdfGenerateRun render outputDir names).1

/-- The GeneratedFile of one recipient of a slide-deck (PPTX) batch,
modelled from the spec: filenames derive from the recipient name by the
sanitization of section 6, with the extension of the template format. -/
def mkPptxFile (outputDir n : String) : GeneratedFile :=
  { name := n, filename := "certificate-" ++ safeFileName n ++ ".pptx",
    path := outputDir ++ "/certificate-" ++ safeFileName n ++ ".pptx" }

/-- Modelled from the spec: the per-recipient loop of the Python script
pptx_processor.py, which PPTXProcessor.callPythonProcessor invokes but
which is not among the JavaScript sources.  Spec section 4.5: each
recipient is attempted independently, in order; on success a
GeneratedFile is appended; on failure an error record is appended and the
loop continues with the next recipient.  Returns the files and the trace
of attempted names. -/
def pptxRenderRun (render : String → Except String Unit) (outputDir : String) :
    List String → List GeneratedFile × List String
  | [] => ([], [])
  | n :: rest =>
    let prev := pptxRenderRun render outputDir rest
    match render n with
    | .ok _ => (mkPptxFile outputDir n :: prev.1, n :: prev.2)
    | .error _ => (prev.1, n :: prev.2)

/-- The generateCertificates dispatcher of server.js: `ext` is the already
lower-cased template extension (`path.extname(templatePath).toLowerCase()`).
A `.pptx` template goes to the PPTX processor, a `.pdf` template to the PDF
processor, and any other extension throws, which the surrounding catch
turns into an empty result with no recipient attempted. -/
def generateCertificatesRun (render : String → Except String Unit) (ext outputDir : String)
    (names : List String) : List GeneratedFile × List String :=
  if ext = ".pptx" then pptxRenderRun render outputDir names
  else if ext = ".pdf" then pdfGenerateRun render outputDir names
  else ([], [])

/-!
Spreadsheet extraction and the /upload route of server.js.
-/

/-- One spreadsheet row as the JSON object produced by sheet_to_json:
an association from column name to cell value. -/
abbrev Row := List (String × String)

/-- Reading a property of a row; an absent key reads as the empty string
(standing for the JavaScript undefined, which the later trim filter
removes exactly as the source does). -/
def rowGet (r : Row) (k : String) : String := (r.lookup k).getD ""

/-- The recognized name column headers, in the order probed. -/
def nameColumns : List String := ["name", "Name", "NAME", "names", "Names", "NAMES"]

/-- The recognized email column headers, in the order probed. -/
def emailColumns : List String :=
  ["email", "Email", "EMAIL", "emails", "Emails", "EMAILS", "e-mail", "E-mail", "E-MAIL"]

/-- Column probe of extractDataFromExcel: the first candidate header such
that the data is non-empty and row 0 has the property. -/
def findColumn (cols : List String) (rows : List Row) : Option String :=
  cols.find? (fun c =>
    match rows with
    | [] => false
    | r0 :: _ => (r0.lookup c).isSome)

/-- One extracted recipient: name, optional email. -/
structure Recipient where
  name : String
  email : Option String
deriving DecidableEq

/-- The message thrown when no name column is recognized. -/
def noNameColumnMsg : String :=
  "No name column found. Please ensure your Excel file has a column named \"name\", \"Name\", or \"NAME\""

/-- extractDataFromExcel of server.js: find the name column (throwing when
absent; the catch wraps the message), find the email column, map the rows
to recipients and keep those whose name is non-empty after trimming. -/
def extractDataFromExcel (rows : List Row) :
    Except String (List Recipient × Bool × Option String) :=
  match findColumn nameColumns rows with
  | none => .error ("Error reading Excel file: " ++ noNameColumnMsg)
  | some nameCol =>
    let emailCol := findColumn emailColumns rows
    let extracted :=
      (rows.map (fun r =>
        ({ name := rowGet r nameCol,
           email := emailCol.map (fun c => rowGet r c) } : Recipient))).filter
        (fun it => !(trimS it.name == ""))
    .ok (extracted, emailCol.isSome, emailCol)

/-- The JSON body of a successful /upload response. -/
structure UploadResponse where
  success : Bool
  message : String
  names : List String
  generatedFiles : List GeneratedFile
  batchId : String
  hasEmails : Bool
  emailColumn : Option String
deriving DecidableEq

/-- What the /upload route answers: an error status with a message, or the
success body. -/
inductive UploadOutcome where
  | errorResp (status : Nat) (error : String)
  | okResp (resp : UploadResponse)
deriving DecidableEq

/-- Whether an outcome is an error response. -/
def isErrorResp : UploadOutcome → Bool
  | .errorResp _ _ => true
  | .okResp _ => false

/-- The /upload route of server.js, after multer stored both files: extract
the spreadsheet data (a thrown extraction error is caught and answered as
status 500), answer 400 when no names were extracted, otherwise run the
certificate generation and answer the success body.  `ext` is the
lower-cased template extension and `ts` the batch timestamp.  The second
component is the trace of attempted renders. -/
def uploadHandler (render : String → Except String Unit) (rows : List Row)
    (ext ts : String) : UploadOutcome × List String :=
  match extractDataFromExcel rows with
  | .error msg => (.errorResp 500 msg, [])
  | .ok (data, hasEmails, emailCol) =>
    if data.length = 0 then
      (.errorResp 400 "No names found in the Excel file", [])
    else
      let names := data.map (fun it => it.name)
      let outputDir := "./generated/batch-" ++ ts
      let run := generateCertificatesRun render ext outputDir names
      (.okResp
        { success := true,
          message := "Generated " ++ toString run.1.length ++ " certificates",
          names := names,
          generatedFiles := run.1,
          batchId := "batch-" ++ ts,
          hasEmails := hasEmails,
          emailColumn := emailCol }, run.2)

/-!
Font size heuristic of PDFProcessor.analyzeTemplate and its use by
processAdvancedPage.  Page dimensions and sizes are exact rationals.
-/

/-- analyzeTemplate: for a standard certificate size (width over 500 and
height over 600) the suggested size is min(32, width/20), otherwise
min(24, width/25). -/
def suggestedFontSize (width height : ℚ) : ℚ :=
  if 500 < width ∧ 600 < height then min 32 (width / 20) else min 24 (width / 25)

/-- processAdvancedPage: `options.fontSize || analysis.suggestedFontSize` —
the caller-supplied size wins unless absent or zero (falsy), in which case
the analyzed suggestion is used. -/
def advancedPageFontSize (optFontSize : Option ℚ) (width height : ℚ) : ℚ :=
  match optFontSize with
  | some s => if s = 0 then suggestedFontSize width height else s
  | none => suggestedFontSize width height

/-!
EmailService: sendCertificate attachment and sendBulkCertificates loop.
-/

/-- The attachment filename of sendCertificate:
`certificate-` + name with each character outside [a-zA-Z0-9] replaced by
an underscore + `.pdf`. -/
def emailAttachmentFileName (name : String) : String :=
  "certificate-" ++ (name.toList.map (fun c => if isAlphaNum c then c else '_')).asString ++ ".pdf"

/-- One entry of the mailOptions attachments array. -/
structure MailAttachment where
  filename : String
  path : String
  contentType : String
deriving DecidableEq

/-- The attachment sendCertificate builds for a recipient name and the
path of the generated certificate file. -/
def mailAttachmentFor (name certificatePath : String) : MailAttachment :=
  { filename := emailAttachmentFileName name,
    path := certificatePath,
    contentType := "application/pdf" }

/-- One bulk email recipient. -/
structure EmailRecipient where
  name : String
  email : String
deriving DecidableEq

/-- One entry of the errors array of sendBulkCertificates. -/
structure SendError where
  name : String
  email : String
  error : String
deriving DecidableEq

/-- One entry of the results array: what sendCertificate resolves with. -/
structure SendResultEntry where
  messageId : String
  recipient : String
  name : String
deriving DecidableEq

/-- The value sendBulkCertificates returns. -/
structure BulkResult where
  success : Bool
  sent : Nat
  failed : Nat
  results : List SendResultEntry
  errors : List SendError
deriving DecidableEq

/-- One step of the observable behavior of the bulk loop: an attempted
send, or a rate-limit pause of the given milliseconds. -/
inductive EmailEvent where
  | attempt (name email : String)
  | delayMs (ms : Nat)
deriving DecidableEq

/-- The message sendCertificate throws when the transport fails. -/
def sendFailureMsg (email transportMsg : String) : String :=
  "Failed to send email to " ++ email ++ ": " ++ transportMsg

/-- The bulk loop of sendBulkCertificates: recipients in order; a
successful send pushes a result entry and then waits 1000 ms; a failed
send pushes an error record (name, email, wrapped message) and continues
at once with the next recipient.  The send oracle abstracts
transporter.sendMail: a message id on success, a transport message on
failure.  The third component is the event trace. -/
def sendBulkRun (send : EmailRecipient → Except String String) :
    List EmailRecipient → List SendResultEntry × List SendError × List EmailEvent
  | [] => ([], [], [])
  | r :: rest =>
    match send r with
    | .ok mid =>
      let prev := sendBulkRun send rest
      ({ messageId := mid, recipient := r.email, name := r.name } :: prev.1,
       prev.2.1,
       .attempt r.name r.email :: .delayMs 1000 :: prev.2.2)
    | .error m =>
      let prev := sendBulkRun send rest
      (prev.1,
       { name := r.name, email := r.email, error := sendFailureMsg r.email m } :: prev.2.1,
       .attempt r.name r.email :: prev.2.2)

/-- The structured value sendBulkCertificates returns. -/
def sendBulkCertificates (send : EmailRecipient → Except String String)
    (recipients : List EmailRecipient) : BulkResult :=
  let run := sendBulkRun send recipients
  { success := run.2.1.isEmpty,
    sent := run.1.length,
    failed := run.2.1.length,
    results := run.1,
    errors := run.2.1 }

/-- The event trace of one bulk send. -/
def sendBulkTrace (send : EmailRecipient → Except String String)
    (recipients : List EmailRecipient) : List EmailEvent :=
  (sendBulkRun send recipients).2.2

/-- The payload of a successful send, the empty string otherwise. -/
def okMsgOf : Except String String → String
  | .ok m => m
  | .error _ => ""

/-- The transport message of a failed send, the empty string otherwise. -/
def errMsgOf : Except String String → String
  | .ok _ => ""
  | .error m => m

/-!
Helper lemmas.
-/

theorem mem_foldl_addDistinct (l : List String) (acc : List String) (x : String)
    (hx : x ∈ l.foldl addDistinct acc) : x ∈ acc ∨ x ∈ l := by
  induction l generalizing acc with
  | nil => exact Or.inl hx
  | cons s t ih =>
    rw [List.foldl_cons] at hx
    rcases ih (addDistinct acc s) hx with h | h
    · unfold addDistinct at h
      split at h
      · exact Or.inl h
      · rcases List.mem_append.mp h with h2 | h2
        · exact Or.inl h2
        · simp only [List.mem_singleton] at h2
          subst h2
          exact Or.inr (List.mem_cons_self ..)
    · exact Or.inr (List.mem_cons_of_mem _ h)

theorem nodup_foldl_addDistinct (l : List String) (acc : List String) (h : acc.Nodup) :
    (l.foldl addDistinct acc).Nodup := by
  induction l generalizing acc with
  | nil => exact h
  | cons s t ih =>
    rw [List.foldl_cons]
    refine ih _ ?_
    unfold addDistinct
    split
    · exact h
    · next hs =>
      rw [List.nodup_append]
      exact ⟨h, List.nodup_singleton s, by simpa using hs⟩

theorem findMatchesAux_shape (fuel : Nat) :
    ∀ (l m : List Char), m ∈ findMatchesAux fuel l →
      ∃ b : List Char, b ≠ [] ∧ rbrace ∉ b ∧
        m = lbrace :: lbrace :: (b ++ [rbrace, rbrace]) := by
  induction fuel with
  | zero =>
    intro l m h
    simp [findMatchesAux] at h
  | succ n ih =>
    intro l m h
    match l with
    | [] => simp [findMatchesAux] at h
    | [c] => simp [findMatchesAux] at h
    | a :: b :: rest =>
      rw [findMatchesAux] at h
      split at h
      · split at h
        · next bodyHd bodyTl r1 r2 rem2 heqTake heqDrop =>
          split at h
          · next hr =>
            rcases List.mem_cons.mp h with h2 | h2
            · refine ⟨bodyHd :: bodyTl, by simp, ?_, h2⟩
              intro hrb
              have hpred := List.mem_takeWhile_imp (p := fun c => !(c == rbrace))
                (l := rest) (heqTake ▸ hrb)
              simp at hpred
            · exact ih _ m h2
          · exact ih _ m h
        · exact ih _ m h
      · exact ih _ m h

theorem mem_collapseWsAux (l : List Char) :
    ∀ (flag : Bool) (c : Char), c ∈ collapseWsAux flag l →
      c = '_' ∨ (c ∈ l ∧ isWs c = false) := by
  induction l with
  | nil =>
    intro flag c hc
    simp [collapseWsAux] at hc
  | cons d ds ih =>
    intro flag c hc
    rw [collapseWsAux] at hc
    split at hc
    · next hd =>
      split at hc
      · rcases ih _ _ hc with h | h
        · exact Or.inl h
        · exact Or.inr ⟨List.mem_cons_of_mem _ h.1, h.2⟩
      · rcases List.mem_cons.mp hc with h | h
        · exact Or.inl h
        · rcases ih _ _ h with h2 | h2
          · exact Or.inl h2
          · exact Or.inr ⟨List.mem_cons_of_mem _ h2.1, h2.2⟩
    · next hd =>
      rcases List.mem_cons.mp hc with h | h
      · subst h
        exact Or.inr ⟨List.mem_cons_self .., by simpa using hd⟩
      · rcases ih _ _ h with h2 | h2
        · exact Or.inl h2
        · exact Or.inr ⟨List.mem_cons_of_mem _ h2.1, h2.2⟩

/-!
Claim theorems.
-/

/-- C4: for every template text, the placeholder scan returns a set with no
duplicate entries; every returned token is non-empty, so a token whose body
is empty or only whitespace after trimming is discarded (the concrete
whitespace-only token shows the discard); and a text with zero regex
matches yields the empty set rather than an error. -/
theorem c4_scan_set_semantics (content : String) :
    (scanPlaceholders content).Nodup ∧
    ((scanPlaceholders content).all (fun p => !(p == ""))) = true ∧
    (findMatches content.toList = [] → scanPlaceholders content = []) ∧
    scanPlaceholders "\x7b\x7b   \x7d\x7d" = [] := by
  refine ⟨nodup_foldl_addDistinct _ _ List.nodup_nil, ?_, ?_, by decide⟩
  · rw [List.all_eq_true]
    intro p hp
    simp only [scanPlaceholders, dedupKeepFirst] at hp
    rcases mem_foldl_addDistinct _ _ _ hp with h | h
    · simp at h
    · exact (List.mem_filter.mp h).2
  · intro h
    simp only [scanPlaceholders, dedupKeepFirst, h, List.map_nil, List.filter_nil,
      List.foldl_nil]

/-- C4 witness: on the empty template text there are no matches and the
scan returns the empty set. -/
theorem c4_witness : scanPlaceholders "" = [] :=
  (c4_scan_set_semantics "").2.2.1 rfl

/-- C5 counterexample: on the text consisting of the single match whose
body holds an interior left brace, the scanner removes that brace instead
of preserving it: the match body is the five characters of the body with
the interior brace, its trim leaves it unchanged, yet the scanner yields
the token without the brace. -/
theorem c5_counterexample :
    scanPlaceholders "\x7b\x7ba\x7bb\x7d\x7d" = ["ab"] ∧
    (findMatches ("\x7b\x7ba\x7bb\x7d\x7d".toList)).map matchBody = ["a\x7bb".toList] ∧
    ("ab" : String) ≠ (trimWs ("a\x7bb".toList)).asString := by
  refine ⟨by decide, by decide, by decide⟩

/-- C5 (amended): for every match of the pattern, the token the scanner
produces is the matched body with all brace characters removed and then
leading and trailing whitespace trimmed — interior left braces are removed
rather than preserved; the body itself is non-empty and free of right
braces, and case is preserved exactly, so the three case variants of the
name token yield three distinct placeholders. -/
theorem c5_token_rule (content : String) (m : List Char)
    (hm : m ∈ findMatches content.toList) :
    matchBody m ≠ [] ∧ rbrace ∉ matchBody m ∧
    placeholderOfMatch m =
      (trimWs ((matchBody m).filter (fun c => !(c == lbrace)))).asString ∧
    scanPlaceholders "\x7b\x7bname\x7d\x7d \x7b\x7bNAME\x7d\x7d \x7b\x7bName\x7d\x7d" =
      ["name", "NAME", "Name"] := by
  obtain ⟨b, hb, hrb, rfl⟩ := findMatchesAux_shape _ _ m hm
  have hdrop : (lbrace :: lbrace :: (b ++ [rbrace, rbrace])).drop 2 = b ++ [rbrace, rbrace] := rfl
  have h1 : (b ++ [rbrace, rbrace]).dropLast = b ++ [rbrace] := by
    rw [show b ++ [rbrace, rbrace] = (b ++ [rbrace]) ++ [rbrace] by simp]
    exact List.dropLast_concat ..
  have h2 : (b ++ [rbrace]).dropLast = b := List.dropLast_concat ..
  have hbody : matchBody (lbrace :: lbrace :: (b ++ [rbrace, rbrace])) = b := by
    rw [matchBody, hdrop, h1, h2]
  refine ⟨by rw [hbody]; exact hb, by rw [hbody]; exact hrb, ?_, by decide⟩
  rw [hbody, placeholderOfMatch]
  have hfl : (lbrace :: lbrace :: (b ++ [rbrace, rbrace])).filter
      (fun c => !(c == lbrace) && !(c == rbrace)) =
      b.filter (fun c => !(c == lbrace) && !(c == rbrace)) := by
    simp [List.filter_append, List.filter_cons]
  rw [hfl]
  have hcongr : b.filter (fun c => !(c == lbrace) && !(c == rbrace)) =
      b.filter (fun c => !(c == lbrace)) := by
    apply List.filter_congr
    intro x hx
    have hxr : ¬(x = rbrace) := fun hxeq => hrb (hxeq ▸ hx)
    simp [hxr]
  rw [hcongr]

/-- C5 witness: the amended rule evaluated on a concrete match with inner
padding. -/
theorem c5_witness :
    placeholderOfMatch ("\x7b\x7b NAME \x7d\x7d".toList) =
      (trimWs ((matchBody ("\x7b\x7b NAME \x7d\x7d".toList)).filter
        (fun c => !(c == lbrace)))).asString :=
  (c5_token_rule "\x7b\x7b NAME \x7d\x7d" _ (by decide)).2.2.1

/-- C6 counterexample: the first replace keeps every whitespace character,
not only the space: on a name holding a tab the code keeps the tab and
collapses it to an underscore, while the rule as the claim words it (strip
everything outside letters, digits and the space) would delete the tab. -/
theorem c6_counterexample :
    safeFileName "a\tb" = "a_b" ∧ specSafeFileName "a\tb" = "ab" ∧
    ("a_b" : String) ≠ "ab" := by
  refine ⟨by decide, by decide, by decide⟩

/-- C6 (amended): the output filename derives from the recipient name by
stripping all characters outside the class of letters, digits and
whitespace (the JavaScript \s class, not only the space), then collapsing
every whitespace run to a single underscore; the sanitized name therefore
holds only letters, digits and underscores, and the name with apostrophe,
comma and period yields certificate-OBrien_Jr.pdf. -/
theorem c6_safe_filename_rule (name : String) :
    ((safeFileName name).toList.all (fun c => isAlphaNum c || c == '_')) = true ∧
    pdfCertFileName "O\x27Brien, Jr." = "certificate-OBrien_Jr.pdf" ∧
    safeFileName "several  spaces" = "several_spaces" := by
  refine ⟨?_, by decide, by decide⟩
  rw [List.all_eq_true]
  intro c hc
  have hc2 : c ∈ collapseWs (name.toList.filter keepCh) := hc
  rcases mem_collapseWsAux _ _ _ hc2 with h | ⟨h1, h2⟩
  · simp [h]
  · have h3 := (List.mem_filter.mp h1).2
    rw [keepCh, h2, Bool.or_false] at h3
    simp [h3]

theorem mem_pdfGenerateRun_files (render : String → Except String Unit) (outputDir : String) :
    ∀ (names : List String) (f : GeneratedFile),
      f ∈ (pdfGenerateRun render outputDir names).1 →
      ∃ n, n ∈ names ∧ f = mkPdfFile outputDir n := by
  intro names
  induction names with
  | nil =>
    intro f hf
    simp [pdfGenerateRun] at hf
  | cons n rest ih =>
    intro f hf
    cases hrn : render n with
    | ok u =>
      simp only [pdfGenerateRun, hrn] at hf
      rcases List.mem_cons.mp hf with h | h
      · exact ⟨n, List.mem_cons_self .., h⟩
      · obtain ⟨n2, hn2, hf2⟩ := ih f h
        exact ⟨n2, List.mem_cons_of_mem _ hn2, hf2⟩
    | error e =>
      simp only [pdfGenerateRun, hrn] at hf
      obtain ⟨n2, hn2, hf2⟩ := ih f hf
      exact ⟨n2, List.mem_cons_of_mem _ hn2, hf2⟩

theorem pdfCertPath_inj (outputDir n1 n2 : String)
    (h : pdfCertPath outputDir n1 = pdfCertPath outputDir n2) :
    safeFileName n1 = safeFileName n2 := by
  have hd := congrArg String.data h
  simp only [pdfCertPath, String.data_append] at hd
  have h1 := List.append_cancel_right hd
  have h2 := List.append_cancel_left h1
  exact String.ext h2

/-- C7 counterexample: two distinct recipients whose names sanitize to the
same string are written to the same output path, so the recipient-to-path
mapping of a batch is not injective. -/
theorem c7_counterexample :
    (pdfGenerateCertificates (fun _ => .ok ()) "out" ["A.B", "AB"]).map (fun f => f.path) =
      ["out/certificate-AB.pdf", "out/certificate-AB.pdf"] ∧
    (pdfGenerateCertificates (fun _ => .ok ()) "out" ["A.B", "AB"]).map (fun f => f.name) =
      ["A.B", "AB"] ∧
    ("A.B" : String) ≠ "AB" := by
  refine ⟨by decide, by decide, by decide⟩

/-- C7 (amended): within one batch, renders of recipients whose names
sanitize to distinct safe filenames write to pairwise distinct output
paths; recipients whose names sanitize to the same string (and duplicated
names) share one output path, the later render overwriting the earlier, so
the recipient-to-path mapping is injective only up to sanitization. -/
theorem c7_paths_distinct (render : String → Except String Unit) (outputDir : String)
    (names : List String) (f g : GeneratedFile)
    (hf : f ∈ pdfGenerateCertificates render outputDir names)
    (hg : g ∈ pdfGenerateCertificates render outputDir names)
    (hne : safeFileName f.name ≠ safeFileName g.name) :
    f.path ≠ g.path := by
  obtain ⟨n1, _, rfl⟩ := mem_pdfGenerateRun_files render outputDir names f hf
  obtain ⟨n2, _, rfl⟩ := mem_pdfGenerateRun_files render outputDir names g hg
  intro hpath
  exact hne (pdfCertPath_inj outputDir n1 n2 hpath)

/-- C7 witness: two recipients with distinct sanitized names get distinct
paths in a concrete batch. -/
theorem c7_witness : (mkPdfFile "out" "x").path ≠ (mkPdfFile "out" "y").path :=
  c7_paths_distinct (fun _ => .ok ()) "out" ["x", "y"] (mkPdfFile "out" "x")
    (mkPdfFile "out" "y") (by decide) (by decide) (by decide)

theorem pdfGenerateRun_attempts (render : String → Except String Unit) (outputDir : String) :
    ∀ names, (pdfGenerateRun render outputDir names).2 = names := by
  intro names
  induction names with
  | nil => rfl
  | cons n rest ih =>
    cases hrn : render n <;> simp only [pdfGenerateRun, hrn] <;> rw [ih]

theorem pptxRenderRun_attempts (render : String → Except String Unit) (outputDir : String) :
    ∀ names, (pptxRenderRun render outputDir names).2 = names := by
  intro names
  induction names with
  | nil => rfl
  | cons n rest ih =>
    cases hrn : render n <;> simp only [pptxRenderRun, hrn] <;> rw [ih]

theorem pdfGenerateRun_success_mem (render : String → Except String Unit) (outputDir : String) :
    ∀ names n, n ∈ names → (render n).isOk = true →
      mkPdfFile outputDir n ∈ (pdfGenerateRun render outputDir names).1 := by
  intro names
  induction names with
  | nil =>
    intro n h _
    simp at h
  | cons m rest ih =>
    intro n hn hok
    rcases List.mem_cons.mp hn with h | h
    · subst h
      cases hrn : render n with
      | ok u => simp [pdfGenerateRun, hrn]
      | error e => rw [hrn] at hok; simp [Except.isOk, Except.toBool] at hok
    · cases hrn : render m with
      | ok u =>
        simp only [pdfGenerateRun, hrn]
        exact List.mem_cons_of_mem _ (ih n h hok)
      | error e =>
        simp only [pdfGenerateRun, hrn]
        exact ih n h hok

theorem pptxRenderRun_success_mem (render : String → Except String Unit) (outputDir : String) :
    ∀ names n, n ∈ names → (render n).isOk = true →
      mkPptxFile outputDir n ∈ (pptxRenderRun render outputDir names).1 := by
  intro names
  induction names with
  | nil =>
    intro n h _
    simp at h
  | cons m rest ih =>
    intro n hn hok
    rcases List.mem_cons.mp hn with h | h
    · subst h
      cases hrn : render n with
      | ok u => simp [pptxRenderRun, hrn]
      | error e => rw [hrn] at hok; simp [Except.isOk, Except.toBool] at hok
    · cases hrn : render m with
      | ok u =>
        simp only [pptxRenderRun, hrn]
        exact List.mem_cons_of_mem _ (ih n h hok)
      | error e =>
        simp only [pptxRenderRun, hrn]
        exact ih n h hok

/-- C1: for a batch over a supported template (lower-cased extension .pdf
or .pptx), the generation attempts each recipient exactly once — the trace
of attempted names is the recipient list itself, whatever the render
oracle does — and a rendering failure of one recipient aborts nothing:
every recipient whose render succeeds contributes a GeneratedFile carrying
its name to the returned list.  The per-recipient loop of the PPTX side is
modelled from the spec, its Python implementation not being among the
sources. -/
theorem c1_generate_attempts_each_once (render : String → Except String Unit)
    (ext outputDir : String) (names : List String)
    (hext : ext = ".pdf" ∨ ext = ".pptx") :
    (generateCertificatesRun render ext outputDir names).2 = names ∧
    ∀ n, n ∈ names → (render n).isOk = true →
      ∃ f, f ∈ (generateCertificatesRun render ext outputDir names).1 ∧ f.name = n := by
  rcases hext with h | h <;> subst h
  · have hq : generateCertificatesRun render ".pdf" outputDir names =
        pdfGenerateRun render outputDir names := by
      rw [generateCertificatesRun, if_neg (by decide), if_pos rfl]
    rw [hq]
    refine ⟨pdfGenerateRun_attempts render outputDir names, ?_⟩
    intro n hn hok
    exact ⟨mkPdfFile outputDir n, pdfGenerateRun_success_mem render outputDir names n hn hok, rfl⟩
  · have hq : generateCertificatesRun render ".pptx" outputDir names =
        pptxRenderRun render outputDir names := by
      rw [generateCertificatesRun, if_pos rfl]
    rw [hq]
    refine ⟨pptxRenderRun_attempts render outputDir names, ?_⟩
    intro n hn hok
    exact ⟨mkPptxFile outputDir n, pptxRenderRun_success_mem render outputDir names n hn hok, rfl⟩

/-- C1 witness: a concrete PDF batch in which the middle recipient fails
still attempts all three recipients. -/
theorem c1_witness :
    (generateCertificatesRun
      (fun n => if n = "Bob" then .error "boom" else .ok ())
      ".pdf" "g" ["Ann", "Bob", "Cid"]).2 = ["Ann", "Bob", "Cid"] :=
  (c1_generate_attempts_each_once
    (fun n => if n = "Bob" then .error "boom" else .ok ())
    ".pdf" "g" ["Ann", "Bob", "Cid"] (Or.inl rfl)).1

/-- C2 counterexample: an upload whose template extension is neither .pdf
nor .pptx is not surfaced to the caller as an error response — the route
answers a success body (with zero generated files); nothing is rendered. -/
theorem c2_counterexample :
    isErrorResp (uploadHandler (fun _ => .ok ()) [[("name", "Ann")]] ".doc" "t").1 = false ∧
    (uploadHandler (fun _ => .ok ()) [[("name", "Ann")]] ".doc" "t").2 = [] := by
  refine ⟨by decide, by decide⟩

/-- C2 (amended): a missing name column and an empty extracted recipient
list abort the batch before any rendering starts and are surfaced
immediately as error responses (500 with the wrapped extraction message,
400 with the no-names message); an unsupported template format also aborts
before any rendering starts, but is surfaced as a success response with an
empty generated-files list rather than as an error response. -/
theorem c2_precondition_policy (render : String → Except String Unit) (rows : List Row)
    (ext ts : String) :
    (findColumn nameColumns rows = none →
      uploadHandler render rows ext ts =
        (.errorResp 500 ("Error reading Excel file: " ++ noNameColumnMsg), [])) ∧
    (∀ d he ec, extractDataFromExcel rows = .ok (d, he, ec) → d = [] →
      uploadHandler render rows ext ts =
        (.errorResp 400 "No names found in the Excel file", [])) ∧
    (∀ d he ec, extractDataFromExcel rows = .ok (d, he, ec) → d ≠ [] →
      ext ≠ ".pdf" → ext ≠ ".pptx" →
      (uploadHandler render rows ext ts).2 = [] ∧
      ∃ resp, (uploadHandler render rows ext ts).1 = .okResp resp ∧
        resp.success = true ∧ resp.generatedFiles = []) := by
  refine ⟨?_, ?_, ?_⟩
  · intro h
    have he : extractDataFromExcel rows =
        .error ("Error reading Excel file: " ++ noNameColumnMsg) := by
      rw [extractDataFromExcel, h]
    simp only [uploadHandler, he]
  · intro d he ec hextr hd
    subst hd
    simp [uploadHandler, hextr]
  · intro d he ec hextr hd hpdf hpptx
    have hlen : ¬(d.length = 0) := by
      simpa [List.length_eq_zero] using hd
    have hgen : generateCertificatesRun render ext ("./generated/batch-" ++ ts)
        (d.map (fun it => it.name)) = ([], []) := by
      rw [generateCertificatesRun, if_neg hpptx, if_neg hpdf]
    simp only [uploadHandler, hextr, if_neg hlen, hgen]
    exact ⟨trivial, _, rfl, rfl, rfl⟩

/-- C2 witness: an upload with no rows has no recognized name column and is
answered with the 500 error before anything is rendered. -/
theorem c2_witness :
    uploadHandler (fun _ => .ok ()) ([] : List Row) ".pdf" "t" =
      (.errorResp 500 ("Error reading Excel file: " ++ noNameColumnMsg), []) :=
  (c2_precondition_policy (fun _ => .ok ()) [] ".pdf" "t").1 rfl

theorem pdfGenerateRun_congr (r1 r2 : String → Except String Unit) (outputDir : String)
    (h : ∀ n, (r1 n).isOk = (r2 n).isOk) :
    ∀ names, pdfGenerateRun r1 outputDir names = pdfGenerateRun r2 outputDir names := by
  intro names
  induction names with
  | nil => rfl
  | cons n rest ih =>
    have hn := h n
    cases h1 : r1 n with
    | ok u =>
      cases h2 : r2 n with
      | ok v => simp only [pdfGenerateRun, h1, h2, ih]
      | error e =>
        rw [h1, h2] at hn
        simp [Except.isOk, Except.toBool] at hn
    | error e =>
      cases h2 : r2 n with
      | ok v =>
        rw [h1, h2] at hn
        simp [Except.isOk, Except.toBool] at hn
      | error f => simp only [pdfGenerateRun, h1, h2, ih]

/-- C3 counterexample: a PDF batch of two recipients in which the second
fails answers the caller with a bare partial success: the body carries
success true, the message of a plain count, and only the generated file of
the first recipient; it is byte for byte the same response whatever the
per-recipient failure message was, so no counts of failures and no
per-recipient error details are reported. -/
theorem c3_counterexample :
    uploadHandler (fun n => if n = "Bob" then .error "disk full" else .ok ())
        [[("name", "Ann")], [("name", "Bob")]] ".pdf" "t" =
      uploadHandler (fun n => if n = "Bob" then .error "template corrupted" else .ok ())
        [[("name", "Ann")], [("name", "Bob")]] ".pdf" "t" ∧
    (uploadHandler (fun n => if n = "Bob" then .error "disk full" else .ok ())
        [[("name", "Ann")], [("name", "Bob")]] ".pdf" "t").1 =
      .okResp { success := true, message := "Generated 1 certificates",
                names := ["Ann", "Bob"],
                generatedFiles := [mkPdfFile "./generated/batch-t" "Ann"],
                batchId := "batch-t", hasEmails := false, emailColumn := none } ∧
    ("disk full" : String) ≠ "template corrupted" := by
  refine ⟨by decide, by decide, by decide⟩

/-- C3 (amended): when rendering fails for some recipients of a PDF batch,
the caller still receives a success response whose body lists only the
generated files (and the attempted names); the response is a function of
which recipients succeeded alone — the per-recipient failure messages are
logged to the console and discarded, so no failure counts and no
per-recipient error details reach the caller.  Succeeded and failed counts
with per-recipient details exist only in the separate bulk email result. -/
theorem c3_result_ignores_error_details (r1 r2 : String → Except String Unit)
    (rows : List Row) (ts : String)
    (h : ∀ n, (r1 n).isOk = (r2 n).isOk) :
    uploadHandler r1 rows ".pdf" ts = uploadHandler r2 rows ".pdf" ts ∧
    (∀ resp, (uploadHandler r1 rows ".pdf" ts).1 = .okResp resp → resp.success = true) := by
  have hgen : ∀ outputDir names, generateCertificatesRun r1 ".pdf" outputDir names =
      generateCertificatesRun r2 ".pdf" outputDir names := by
    intro outputDir names
    rw [generateCertificatesRun, generateCertificatesRun, if_neg (by decide),
      if_pos rfl, if_neg (by decide), if_pos rfl]
    exact pdfGenerateRun_congr r1 r2 outputDir h names
  constructor
  · cases hext : extractDataFromExcel rows with
    | error msg => simp only [uploadHandler, hext]
    | ok tr =>
      obtain ⟨d, hemails, ecol⟩ := tr
      by_cases hd : d.length = 0
      · simp only [uploadHandler, hext, if_pos hd]
      · simp only [uploadHandler, hext, if_neg hd, hgen]
  · intro resp hresp
    cases hext : extractDataFromExcel rows with
    | error msg =>
      simp only [uploadHandler, hext] at hresp
      cases hresp
    | ok tr =>
      obtain ⟨d, hemails, ecol⟩ := tr
      by_cases hd : d.length = 0
      · simp only [uploadHandler, hext, if_pos hd] at hresp
        cases hresp
      · simp only [uploadHandler, hext, if_neg hd, UploadOutcome.okResp.injEq] at hresp
        rw [← hresp]

/-- C3 witness: two render oracles failing on every recipient with distinct
messages produce the same upload response. -/
theorem c3_witness :
    uploadHandler (fun _ => .error "a") [[("name", "Ann")]] ".pdf" "t" =
      uploadHandler (fun _ => .error "b") [[("name", "Ann")]] ".pdf" "t" :=
  (c3_result_ignores_error_details (fun _ => .error "a") (fun _ => .error "b")
    [[("name", "Ann")]] "t" (fun _ => rfl)).1

/-- C8 counterexample: the computed font size is not a function of the
page width alone — at the same width 600 the suggested size is 30 when the
height exceeds 600 and 24 when it does not. -/
theorem c8_counterexample :
    suggestedFontSize 600 700 = 30 ∧ suggestedFontSize 600 500 = 24 ∧ (30 : ℚ) ≠ 24 := by
  refine ⟨?_, ?_, by norm_num⟩
  · rw [suggestedFontSize, if_pos (by norm_num)]
    norm_num
  · rw [suggestedFontSize, if_neg (by norm_num)]
    norm_num

/-- C8 (amended): when the caller supplies no font size, the computed size
is a function of the page width and height, the height entering only
through the standard-size threshold that picks the scale and cap (over
500 by 600: min 32 width/20, otherwise min 24 width/25); for every fixed
height it is proportional to the width under a cap, never exceeds the
fixed maximum 32, and is monotone non-decreasing in the width. -/
theorem c8_font_size_rule (w w2 ht : ℚ) (hw : w ≤ w2) :
    advancedPageFontSize none w ht ≤ advancedPageFontSize none w2 ht ∧
    advancedPageFontSize none w ht ≤ 32 ∧
    (advancedPageFontSize none w ht = min 32 (w / 20) ∨
     advancedPageFontSize none w ht = min 24 (w / 25)) := by
  have hval : ∀ x : ℚ, advancedPageFontSize none x ht = suggestedFontSize x ht := fun _ => rfl
  rw [hval, hval]
  refine ⟨?_, ?_, ?_⟩
  · rw [suggestedFontSize, suggestedFontSize]
    by_cases h1 : 500 < w ∧ 600 < ht
    · rw [if_pos h1, if_pos ⟨lt_of_lt_of_le h1.1 hw, h1.2⟩]
      gcongr
    · rw [if_neg h1]
      by_cases h2 : 500 < w2 ∧ 600 < ht
      · rw [if_pos h2]
        have hle : w ≤ 500 := by
          by_contra hcon
          push_neg at hcon
          exact h1 ⟨hcon, h2.2⟩
        calc min 24 (w / 25) ≤ w / 25 := min_le_right _ _
          _ ≤ 20 := by linarith
          _ ≤ min 32 (w2 / 20) := le_min (by norm_num) (by linarith [h2.1])
      · rw [if_neg h2]
        gcongr
  · rw [suggestedFontSize]
    split
    · exact min_le_left _ _
    · exact le_trans (min_le_left _ _) (by norm_num)
  · rw [suggestedFontSize]
    split
    · exact Or.inl rfl
    · exact Or.inr rfl

/-- C8 witness: the monotonicity instance at two concrete widths. -/
theorem c8_witness : advancedPageFontSize none 100 0 ≤ advancedPageFontSize none 200 0 :=
  (c8_font_size_rule 100 200 0 (by norm_num)).1

theorem length_filter_add_length_filter_not (l : List EmailRecipient)
    (p : EmailRecipient → Bool) :
    (l.filter p).length + (l.filter (fun a => !p a)).length = l.length := by
  induction l with
  | nil => rfl
  | cons a t ih =>
    by_cases h : p a <;> simp [List.filter_cons, h] <;> omega

theorem sendBulkRun_spec (send : EmailRecipient → Except String String) :
    ∀ rs : List EmailRecipient,
      (sendBulkRun send rs).1 =
        (rs.filter (fun r => (send r).isOk)).map
          (fun r => { messageId := okMsgOf (send r), recipient := r.email, name := r.name }) ∧
      (sendBulkRun send rs).2.1 =
        (rs.filter (fun r => !(send r).isOk)).map
          (fun r => { name := r.name, email := r.email,
                      error := sendFailureMsg r.email (errMsgOf (send r)) }) ∧
      (sendBulkRun send rs).2.2 =
        rs.flatMap (fun r =>
          if (send r).isOk then [EmailEvent.attempt r.name r.email, EmailEvent.delayMs 1000]
          else [EmailEvent.attempt r.name r.email]) := by
  intro rs
  induction rs with
  | nil => exact ⟨rfl, rfl, rfl⟩
  | cons r rest ih =>
    obtain ⟨ih1, ih2, ih3⟩ := ih
    cases hr : send r with
    | ok mid =>
      refine ⟨?_, ?_, ?_⟩ <;>
        simp [sendBulkRun, List.filter_cons, List.flatMap_cons, hr, ih1, ih2, ih3,
          Except.isOk, Except.toBool, okMsgOf]
    | error m =>
      refine ⟨?_, ?_, ?_⟩ <;>
        simp [sendBulkRun, List.filter_cons, List.flatMap_cons, hr, ih1, ih2, ih3,
          Except.isOk, Except.toBool, errMsgOf]

/-- C9: the bulk certificate email loop attempts each recipient exactly
once, sequentially in list order — the event trace is the concatenation,
over the recipients in order, of one attempt event followed, when the send
succeeded, by the fixed 1000 ms pause; a failed send contributes an error
entry carrying the recipient name, email and wrapped message and stops
nothing; the sent count plus the failed count equals the number of
recipients, and the reported success flag is set exactly when the failed
count is zero. -/
theorem c9_bulk_send (send : EmailRecipient → Except String String)
    (recipients : List EmailRecipient) :
    (sendBulkCertificates send recipients).sent + (sendBulkCertificates send recipients).failed =
      recipients.length ∧
    (sendBulkCertificates send recipients).success =
      ((sendBulkCertificates send recipients).failed == 0) ∧
    (sendBulkCertificates send recipients).errors =
      (recipients.filter (fun r => !(send r).isOk)).map
        (fun r => { name := r.name, email := r.email,
                    error := sendFailureMsg r.email (errMsgOf (send r)) }) ∧
    sendBulkTrace send recipients =
      recipients.flatMap (fun r =>
        if (send r).isOk then [EmailEvent.attempt r.name r.email, EmailEvent.delayMs 1000]
        else [EmailEvent.attempt r.name r.email]) := by
  obtain ⟨h1, h2, h3⟩ := sendBulkRun_spec send recipients
  refine ⟨?_, ?_, h2, h3⟩
  · show (sendBulkRun send recipients).1.length + (sendBulkRun send recipients).2.1.length =
      recipients.length
    rw [h1, h2, List.length_map, List.length_map]
    exact length_filter_add_length_filter_not recipients _
  · show (sendBulkRun send recipients).2.1.isEmpty =
      ((sendBulkRun send recipients).2.1.length == 0)
    cases (sendBulkRun send recipients).2.1 <;> rfl

/-- C10: the email attachment built for a recipient has a filename
independent of the path (and so of the format) of the generated
certificate file, a constant application/pdf content type, a length
showing that every character of the name was kept or replaced in place
(prefix 12 plus name length plus suffix 4), characters drawn only from
letters, digits, underscore, hyphen and period, and — on the concrete
punctuated name — differs from the on-disk certificate filename, whose
sanitization strips rather than replaces. -/
theorem c10_attachment_rule (name p1 p2 : String) :
    (mailAttachmentFor name p1).filename = (mailAttachmentFor name p2).filename ∧
    (mailAttachmentFor name p1).contentType = "application/pdf" ∧
    (mailAttachmentFor name p1).filename.toList.length = name.toList.length + 16 ∧
    ((mailAttachmentFor name p1).filename.toList.all
      (fun c => isAlphaNum c || c == '_' || c == '-' || c == '.')) = true ∧
    emailAttachmentFileName "O\x27Brien, Jr." = "certificate-O_Brien__Jr_.pdf" ∧
    pdfCertFileName "O\x27Brien, Jr." = "certificate-OBrien_Jr.pdf" ∧
    emailAttachmentFileName "O\x27Brien, Jr." ≠ pdfCertFileName "O\x27Brien, Jr." := by
  have hdecomp : (mailAttachmentFor name p1).filename.toList =
      ("certificate-".toList ++ name.toList.map (fun c => if isAlphaNum c then c else '_')) ++
        ".pdf".toList := rfl
  refine ⟨rfl, rfl, ?_, ?_, by decide, by decide, by decide⟩
  · rw [hdecomp]
    have hpre : ("certificate-".toList).length = 12 := by decide
    have hsuf : (".pdf".toList).length = 4 := by decide
    rw [List.length_append, List.length_append, List.length_map, hpre, hsuf]
    omega
  · rw [List.all_eq_true]
    intro c hc
    rw [hdecomp] at hc
    rcases List.mem_append.mp hc with hin | hin
    · rcases List.mem_append.mp hin with hin2 | hin2
      · have hall : ∀ x ∈ ("certificate-".toList),
            (isAlphaNum x || x == '_' || x == '-' || x == '.') = true := by decide
        exact hall c hin2
      · obtain ⟨d, _, rfl⟩ := List.mem_map.mp hin2
        by_cases hd : isAlphaNum d
        · simp [hd]
        · simp [hd]
    · have hall : ∀ x ∈ (".pdf".toList),
          (isAlphaNum x || x == '_' || x == '-' || x == '.') = true := by decide
      exact hall c hin

end Cergen
